import Mathlib

/-!
Verification of the hchk API client layer (src/api.rs) against its
natural-language specification.

Shallow embedding conventions:
- Rust strings are Lean strings; character-level operations are carried out
  on the underlying character lists.
- The rsplitn(2, sep) / splitn(2, sep) idioms of the source, of which only
  the first element is ever used, are embedded as afterLastSep (the suffix
  after the last separator occurrence) and beforeFirstSep (the prefix before
  the first separator occurrence).
- External collaborators (the reqwest HTTP transport, the serde JSON
  decoder, the chrono timestamp parser and the chrono-humanize renderer)
  are parameters of the embedded operations; a network call outcome is a
  SendResult value (transport failure, or a response with status and body).
- A Rust panic (unwrap on a failed parse) is modelled as the value none.
- The local timezone is modelled as UTC, so the with_timezone conversions
  of the source preserve the wall-clock fields; this matches the
  environment assumed by the tests of the repository.
-/

namespace Hchk

/-- The Check struct of src/api.rs (field for field; u32 becomes Nat). -/
structure Check where
  id : Option String
  short_id : Option String
  name : String
  ping_url : String
  pause_url : String
  last_ping : Option String
  next_ping : Option String
  grace : Nat
  n_pings : Nat
  tags : String
  timeout : Option Nat
  tz : Option String
  schedule : Option String
  status : String
  update_url : String
deriving DecidableEq

/-- Suffix of a character list after the last occurrence of sep, the whole
list when sep does not occur: the first element of the Rust idiom
rsplitn(2, sep) used by Check::extract_id. -/
def afterLastSep (sep : Char) (l : List Char) : List Char :=
  (l.reverse.takeWhile (fun a => a != sep)).reverse

/-- Prefix of a character list before the first occurrence of sep, the whole
list when sep does not occur: the first element of the Rust idiom
splitn(2, sep) used by Check::extract_short_id. -/
def beforeFirstSep (sep : Char) (l : List Char) : List Char :=
  l.takeWhile (fun a => a != sep)

/-- Check::extract_id: the rightmost slash-delimited segment of ping_url. -/
def Check.extract_id (c : Check) : String :=
  String.mk (afterLastSep '/' c.ping_url.data)

/-- Check::extract_short_id: the prefix of extract_id before the first
hyphen (note: the source derives from extract_id, not from the id method). -/
def Check.extract_short_id (c : Check) : String :=
  String.mk (beforeFirstSep '-' c.extract_id.data)

/-- The Check::id method: the explicit id field when present, otherwise
the segment extracted from ping_url. -/
def Check.id_fn (c : Check) : String :=
  match c.id with
  | some s => s
  | none => c.extract_id

/-- The Check::short_id method: the explicit short_id field when present,
otherwise the extracted short id. -/
def Check.short_id_fn (c : Check) : String :=
  match c.short_id with
  | some s => s
  | none => c.extract_short_id

/-- Check::fill_ids: overwrites both optional fields with the values derived
from ping_url (the source mutates in place; the embedding returns the
updated record). -/
def Check.fill_ids (c : Check) : Check :=
  { c with id := some c.extract_id, short_id := some c.extract_short_id }

/-- Wall-clock fields of a chrono DateTime value (local zone modelled as
UTC, see the header comment). -/
structure DateTime where
  year : Int
  month : Nat
  day : Nat
  hour : Nat
  minute : Nat
  second : Nat
deriving DecidableEq

/-- The sentinel instant built by parse_datetime for an absent timestamp:
Utc.with_ymd_and_hms(1901, 01, 01, 0, 0, 0). -/
def sentinel : DateTime := ⟨1901, 1, 1, 0, 0, 0⟩

/-- parse_datetime of src/api.rs. The parameter p models the external
chrono parse of an ISO-8601 instant (str::parse::<DateTime<Utc>>), which
fails on non ISO-8601 input; the source calls unwrap() on that result, so a
parse failure is a panic, modelled as none. An absent timestamp yields the
1901 sentinel. -/
def parse_datetime (p : String → Option DateTime) (ts : Option String) :
    Option DateTime :=
  match ts with
  | none => some sentinel
  | some s => p s

/-- humanize_datetime of src/api.rs: formats the instant with the external
chrono-humanize HumanTime renderer, modelled by the parameter ht. The
source applies the renderer unconditionally (no special case of any kind). -/
def humanize_datetime (ht : DateTime → String) (dt : DateTime) : String :=
  ht dt

/-- Check::last_ping_at: parse_datetime applied to the last_ping field
(none models the panic on an unparsable present timestamp). -/
def Check.last_ping_at (p : String → Option DateTime) (c : Check) :
    Option DateTime :=
  parse_datetime p c.last_ping

/-- Check::humanized_last_ping_at: humanize_datetime of last_ping_at. -/
def Check.humanized_last_ping_at (p : String → Option DateTime)
    (ht : DateTime → String) (c : Check) : Option String :=
  (c.last_ping_at p).map (humanize_datetime ht)

/-- Outcome of one reqwest send: a transport failure with a message, or an
HTTP response with a status code and a body. The source never inspects the
status field of a response. -/
inductive SendResult where
  | failure (msg : String)
  | response (status : Nat) (body : String)
deriving DecidableEq

/-- True exactly when a send produced an HTTP response (of any status). -/
def SendResult.isResponse : SendResult → Bool
  | .failure _ => false
  | .response _ _ => true

/-- Does a response status lie in the 2xx range. Spec vocabulary only; the
source never computes this. -/
def status2xx (s : Nat) : Bool := 200 ≤ s && s < 300

/-- Rust str starts-with on character lists (first argument the pattern). -/
def leadsWith : List Char → List Char → Bool
  | [], _ => true
  | _ :: _, [] => false
  | a :: as, b :: bs => a == b && leadsWith as bs

/-- Plain substring containment on character lists: the pattern (second
argument) occurs contiguously in the first argument. -/
def hasSub : List Char → List Char → Bool
  | [], q => q.isEmpty
  | a :: rest, q => leadsWith q (a :: rest) || hasSub rest q

/-- Rust str::contains for a plain string pattern: case-sensitive
contiguous substring containment, no pattern language. -/
def str_contains (s q : String) : Bool := hasSub s.data q.data

/-- The JSON body built by ApiClient::add: name, schedule, grace in seconds
(u32 product, hence reduced modulo 2 to the 32), tags or empty, tz or UTC,
and the constant unique list holding the name key. -/
structure AddPayload where
  name : String
  schedule : String
  grace : Nat
  tags : String
  tz : String
  unique_name : Bool
deriving DecidableEq

/-- Result of ApiClient::add together with the list of requests issued (the
source posts unconditionally, so the request trace makes the absence of a
local validation phase observable). -/
structure AddOutcome where
  requests : List AddPayload
  result : Except String Check

/-- ApiClient::add of src/api.rs. The parameter decode models the serde
decoding of the response body into a Check (response.json()); net is the
outcome of the send. The source builds the payload, posts it, and decodes:
there is no validation of name or grace and the response status is never
inspected. SimpleError is a bare message string. -/
def add (decode : String → Except String Check) (net : SendResult)
    (name schedule : String) (grace : Nat) (tz tags : Option String) :
    AddOutcome :=
  let tz_val := tz.getD "UTC"
  let tags_val := tags.getD ""
  let payload : AddPayload :=
    ⟨name, schedule, (grace * 3600) % 4294967296, tags_val, tz_val, true⟩
  match net with
  | .failure e => ⟨[payload], .error ("request failed with " ++ e)⟩
  | .response _ body =>
    match decode body with
    | .error e => ⟨[payload], .error e⟩
    | .ok check => ⟨[payload], .ok check⟩

/-- ApiClient::ping of src/api.rs: a GET to check.ping_url; the result is
the requested url paired with the outcome. The body is never read and the
status is never inspected: any response at all is success; only a transport
failure is an error. -/
def ping (net : SendResult) (c : Check) : String × Except String Unit :=
  (c.ping_url,
   match net with
   | .failure e => .error ("request failed with " ++ e)
   | .response _ _ => .ok ())

/-- ApiClient::pause of src/api.rs: a POST to base_url ++ id ++ /pause,
then a serde decode of the body into a Check. The status is never
inspected; the only error after a successful send is a decode error
carrying the serde message. -/
def pause (decode : String → Except String Check) (net : SendResult)
    (base_url : String) (c : Check) : String × Except String Check :=
  (base_url ++ c.id_fn ++ "/pause",
   match net with
   | .failure e => .error ("request failed with " ++ e)
   | .response _ body =>
     match decode body with
     | .error e => .error e
     | .ok check => .ok check)

/-- The filter predicate of ApiClient::get for a present query: the name
contains the query as a substring, or the id method result does. -/
def matchesQuery (q : String) (c : Check) : Bool :=
  str_contains c.name q || str_contains c.id_fn q

/-- ApiClient::get of src/api.rs. The parameter decode_checks collapses the
two-stage body decoding of the source (serde to Value, then the checks
field re-parsed as a check vector) into one abstract decoder producing the
check list or a message. After decoding: filter by the query when present,
then fill_ids on every element, preserving order (the source loop mutates
in place; the embedding maps). -/
def get (decode_checks : String → Except String (List Check))
    (net : SendResult) (query : Option String) :
    Except String (List Check) :=
  match net with
  | .failure e => .error ("request failed with " ++ e)
  | .response _ body =>
    match decode_checks body with
    | .error e => .error e
    | .ok cs =>
      let kept := match query with
        | some q => cs.filter (matchesQuery q)
        | none => cs
      .ok (kept.map Check.fill_ids)

/-- ApiClient::find of src/api.rs: get with the fragment as query; on any
error, none (the error is only printed); on an empty list, none; otherwise
the first element. -/
def find (decode_checks : String → Except String (List Check))
    (net : SendResult) (idq : String) : Option Check :=
  match get decode_checks net (some idq) with
  | .error _ => none
  | .ok cs =>
    match cs with
    | [] => none
    | c :: _ => some c

/-! Concrete fixtures, taken from the test data of the repository. -/

/-- A minimal check value with the ping url used throughout the tests of
the repository and no explicit identifier fields. -/
def baseCheck : Check :=
  { id := none, short_id := none, name := "test",
    ping_url := "https://hc-ping.com/abc123-def456", pause_url := "",
    last_ping := none, next_ping := none, grace := 3600, n_pings := 0,
    tags := "", timeout := none, tz := none, schedule := none,
    status := "up", update_url := "" }

/-- The check described by sample_check_json in the tests of the
repository. -/
def sampleCheck : Check :=
  { id := none, short_id := none, name := "test-check",
    ping_url := "https://hc-ping.com/abc123-def456",
    pause_url := "https://healthchecks.io/api/v1/checks/abc123-def456/pause",
    last_ping := some "2024-01-01T12:00:00+00:00",
    next_ping := some "2024-01-01T13:00:00+00:00",
    grace := 3600, n_pings := 10, tags := "test", timeout := some 86400,
    tz := some "UTC", schedule := some "0 * * * *", status := "up",
    update_url := "https://healthchecks.io/api/v1/checks/abc123-def456" }

/-- A check whose payload carried an explicit id but no explicit short id. -/
def c5x : Check := { baseCheck with id := some "existing-id" }

/-- A check whose ping url token holds no hyphen. -/
def cNoHyphen : Check :=
  { baseCheck with ping_url := "https://hc-ping.com/xyz789" }

/-- A check whose last_ping field is present but not an ISO-8601 instant. -/
def c7x : Check := { baseCheck with last_ping := some "not-a-date" }

/-- A check whose payload carried explicit id and short id values that
differ from the ping url derivation. -/
def c10x : Check :=
  { baseCheck with id := some "payload-id", short_id := some "payload" }

/-- First check of the two-element listing in the query test of the
repository. -/
def checkT1 : Check := { baseCheck with name := "test-check-1" }

/-- Second check of the two-element listing in the query test of the
repository. -/
def checkO : Check :=
  { baseCheck with
    name := "other-check",
    ping_url := "https://hc-ping.com/xyz789-ghi012" }

/-- Models the chrono instant parser on input it rejects (anything that is
not an ISO-8601 instant): the parse fails, so the unwrap of the source
panics. -/
def failParse : String → Option DateTime := fun _ => none

/-- Models the chrono-humanize renderer on the 1901 sentinel: a relative
phrase, roughly one hundred twenty years ago, never the word never. -/
def humanTime123 : DateTime → String := fun _ => "123 years ago"

/-- A serde decoder that accepts the body and produces sampleCheck. -/
def decodeSample : String → Except String Check := fun _ => .ok sampleCheck

/-- The paused variant of the sample check. -/
def c3resp : Check := { sampleCheck with status := "paused" }

/-- A serde decoder that accepts the body and produces the paused check. -/
def decodePaused : String → Except String Check := fun _ => .ok c3resp

/-- A serde decoder failing on an empty body, with the message serde emits
for an empty input; the message carries no status code. -/
def decodeFailEmpty : String → Except String Check :=
  fun _ => .error "EOF while parsing a value at line 1 column 0"

/-- A listing decoder producing the two checks of the query test. -/
def dPair : String → Except String (List Check) :=
  fun _ => .ok [checkT1, checkO]

/-- A listing decoder producing only the check with explicit payload ids. -/
def dC10 : String → Except String (List Check) := fun _ => .ok [c10x]

/-! Helper lemmas on the character-list operations. -/

/-- Taking while not separator stops exactly at an appended separator when
the front part is separator-free. -/
theorem takeWhile_append_sep (sep : Char) (l1 l2 : List Char)
    (h : sep ∉ l1) :
    (l1 ++ sep :: l2).takeWhile (fun a => a != sep) = l1 := by
  induction l1 with
  | nil => simp [List.takeWhile_cons]
  | cons a t ih =>
    simp only [List.mem_cons, not_or] at h
    simp [List.takeWhile_cons, bne_iff_ne, Ne.symm, h.1, ih h.2]

/-- Taking while not separator keeps a separator-free list whole. -/
theorem takeWhile_bne_self (sep : Char) (l : List Char) (h : sep ∉ l) :
    l.takeWhile (fun a => a != sep) = l := by
  induction l with
  | nil => rfl
  | cons a t ih =>
    simp only [List.mem_cons, not_or] at h
    simp [List.takeWhile_cons, bne_iff_ne, Ne.symm, h.1, ih h.2]

/-- The suffix after the last separator of a list ending in a
separator-free tail is that tail. -/
theorem afterLastSep_append (sep : Char) (l1 l2 : List Char)
    (h : sep ∉ l2) :
    afterLastSep sep (l1 ++ sep :: l2) = l2 := by
  unfold afterLastSep
  rw [List.reverse_append, List.reverse_cons, List.append_assoc,
    List.singleton_append,
    takeWhile_append_sep sep l2.reverse l1.reverse (by simpa using h)]
  exact List.reverse_reverse l2

/-! Claim theorems. -/

/-- Claim C4: the id method returns the explicit id field when the payload
carried one, otherwise the rightmost slash-delimited segment of ping_url;
for a ping_url of shape prefix, slash, slash-free token (covering the shape
scheme://host/token) it returns the token exactly, and an empty ping_url
yields the empty string with no panic. -/
theorem C4_id_method (c : Check) (pre token : String)
    (htok : '/' ∉ token.data) :
    c.id_fn = c.id.getD c.extract_id
    ∧ (c.id = none → c.ping_url = pre ++ "/" ++ token → c.id_fn = token)
    ∧ (c.id = none → c.ping_url = "" → c.id_fn = "") := by
  refine ⟨?_, ?_, ?_⟩
  · cases h : c.id <;> simp [Check.id_fn, h]
  · intro hid hurl
    have hex : c.extract_id = token := by
      unfold Check.extract_id
      rw [hurl, String.data_append, String.data_append]
      have hd : ("/" : String).data = ['/'] := rfl
      rw [hd, List.append_assoc, List.singleton_append,
        afterLastSep_append _ _ _ htok]
    simp [Check.id_fn, hid, hex]
  · intro hid hurl
    simp [Check.id_fn, hid, Check.extract_id, hurl, afterLastSep]

/-- Witness for claim C4 at the fixture check of the repository tests. -/
theorem C4_id_method_witness :
    ('/' ∉ ("abc123-def456" : String).data)
    ∧ (baseCheck.id_fn = baseCheck.id.getD baseCheck.extract_id
      ∧ (baseCheck.id = none →
          baseCheck.ping_url = "https://hc-ping.com" ++ "/" ++ "abc123-def456" →
          baseCheck.id_fn = "abc123-def456")
      ∧ (baseCheck.id = none → baseCheck.ping_url = "" →
          baseCheck.id_fn = "")) :=
  ⟨by decide,
   C4_id_method baseCheck "https://hc-ping.com" "abc123-def456" (by decide)⟩

/-- Claim C5 counterexample: with an explicit id and no explicit short
form, the short id method derives from the ping_url token, not from the id
method result: here short_id() is abc123 while the hyphen-prefix of id()
is existing. -/
theorem C5_counterexample :
    c5x.short_id_fn = "abc123"
    ∧ String.mk (beforeFirstSep '-' c5x.id_fn.data) = "existing"
    ∧ c5x.short_id_fn ≠ String.mk (beforeFirstSep '-' c5x.id_fn.data) := by
  refine ⟨by decide, by decide, by decide⟩

/-- Claim C5 amended: short_id() returns the explicit short form when
supplied, otherwise the hyphen-prefix of the ping_url-derived id; when the
payload carried no explicit id this coincides with the hyphen-prefix of
id(), and then an id() without hyphen is returned unchanged. -/
theorem C5_short_id_method (c : Check) :
    c.short_id_fn = c.short_id.getD c.extract_short_id
    ∧ (c.id = none →
        c.extract_short_id = String.mk (beforeFirstSep '-' c.id_fn.data))
    ∧ (c.id = none → c.short_id = none → '-' ∉ c.id_fn.data →
        c.short_id_fn = c.id_fn) := by
  refine ⟨?_, ?_, ?_⟩
  · cases h : c.short_id <;> simp [Check.short_id_fn, h]
  · intro hid
    simp [Check.id_fn, hid, Check.extract_short_id]
  · intro hid hsid hhy
    have hidfn : c.id_fn = c.extract_id := by simp [Check.id_fn, hid]
    rw [hidfn] at hhy
    have : c.extract_short_id = c.extract_id := by
      unfold Check.extract_short_id beforeFirstSep
      rw [takeWhile_bne_self '-' _ hhy]
    simp [Check.short_id_fn, hsid, this, hidfn]

/-- Witness for claim C5 at a check whose token holds no hyphen. -/
theorem C5_short_id_method_witness :
    (cNoHyphen.id = none ∧ cNoHyphen.short_id = none
      ∧ '-' ∉ cNoHyphen.id_fn.data)
    ∧ cNoHyphen.short_id_fn = cNoHyphen.id_fn :=
  ⟨⟨rfl, rfl, by decide⟩,
   (C5_short_id_method cNoHyphen).2.2 rfl rfl (by decide)⟩

/-- Claim C7 counterexample: a present but unparsable last_ping makes
last_ping_at panic (the source unwraps the chrono parse result), modelled
as none; in particular it does not return the sentinel. -/
theorem C7_counterexample :
    c7x.last_ping_at failParse = none
    ∧ c7x.last_ping_at failParse ≠ some sentinel :=
  ⟨rfl, by decide⟩

/-- Claim C7 amended: last_ping_at returns the 1901-01-01 00:00 sentinel
when last_ping is absent and hands a present timestamp to the chrono
parser, panicking when the parse fails (so it is total only on absent or
parsable input); a parsable instant is returned as parsed (the timezone
conversion preserves the instant). -/
theorem C7_last_ping_at (p : String → Option DateTime) (c : Check) :
    (c.last_ping = none → c.last_ping_at p = some sentinel)
    ∧ (∀ s, c.last_ping = some s → c.last_ping_at p = p s)
    ∧ sentinel.year = 1901 ∧ sentinel.month = 1 ∧ sentinel.day = 1
    ∧ sentinel.hour = 0 ∧ sentinel.minute = 0 := by
  refine ⟨?_, ?_, rfl, rfl, rfl, rfl, rfl⟩
  · intro h; simp [Check.last_ping_at, parse_datetime, h]
  · intro s h; simp [Check.last_ping_at, parse_datetime, h]

/-- Witness for claim C7 at a check with no last_ping. -/
theorem C7_last_ping_at_witness :
    (baseCheck.last_ping = none)
    ∧ baseCheck.last_ping_at failParse = some sentinel :=
  ⟨rfl, (C7_last_ping_at failParse baseCheck).1 rfl⟩

/-- Claim C6 (the code at the failing input): humanized_last_ping_at hands
the resolved instant straight to the external HumanTime renderer with no
year test and no special word: on a check with no last_ping, for every
renderer, the result is exactly the rendering of the 1901 sentinel; the
chrono-humanize rendering of an instant about a century in the past is a
relative phrase, not the word never. -/
theorem C6_humanized_sentinel (p : String → Option DateTime)
    (ht : DateTime → String) :
    baseCheck.humanized_last_ping_at p ht = some (ht sentinel)
    ∧ baseCheck.humanized_last_ping_at failParse humanTime123
        = some "123 years ago"
    ∧ some ("123 years ago" : String) ≠ some ("never" : String) :=
  ⟨rfl, rfl, by decide⟩

/-- Claim C2: find queries get with the fragment, returns none on any
classified error of get and on an empty match list, and otherwise the
first element in service order; it never propagates an error (its result
type has no error case). -/
theorem C2_find_first (d : String → Except String (List Check))
    (net : SendResult) (q : String) :
    find d net q =
      match get d net (some q) with
      | .error _ => none
      | .ok cs => cs.head? := by
  unfold find
  cases h : get d net (some q) with
  | error e => rfl
  | ok cs => cases cs <;> rfl

/-- Claim C8: on a decoded listing and a present query, get keeps exactly
the checks whose name or id method result contains the query as a plain
substring, in service order (the result is a sublist image, no re-sort),
and resolves the id and short_id fields of every returned check. -/
theorem C8_get_query (d : String → Except String (List Check)) (s : Nat)
    (b q : String) (cs : List Check) (h : d b = .ok cs) :
    get d (.response s b) (some q)
        = .ok ((cs.filter (matchesQuery q)).map Check.fill_ids)
    ∧ ((cs.filter (matchesQuery q)).map Check.fill_ids).Sublist
        (cs.map Check.fill_ids)
    ∧ ∀ c ∈ (cs.filter (matchesQuery q)).map Check.fill_ids,
        c.id = some c.extract_id ∧ c.short_id = some c.extract_short_id := by
  refine ⟨by simp [get, h], (List.filter_sublist cs).map Check.fill_ids, ?_⟩
  intro c hc
  obtain ⟨c0, _, rfl⟩ := List.mem_map.mp hc
  exact ⟨rfl, rfl⟩

/-- Witness for claim C8 at the two-check listing of the repository query
test: the query test keeps exactly the first check. -/
theorem C8_get_query_witness :
    (dPair "listing" = .ok [checkT1, checkO])
    ∧ (get dPair (.response 200 "listing") (some "test")
        = .ok (([checkT1, checkO].filter (matchesQuery "test")).map
            Check.fill_ids)
      ∧ (([checkT1, checkO].filter (matchesQuery "test")).map
            Check.fill_ids).Sublist ([checkT1, checkO].map Check.fill_ids)
      ∧ ∀ c ∈ ([checkT1, checkO].filter (matchesQuery "test")).map
            Check.fill_ids,
          c.id = some c.extract_id ∧ c.short_id = some c.extract_short_id) :=
  ⟨rfl, C8_get_query dPair 200 "listing" "test" [checkT1, checkO] rfl⟩

/-- Claim C10: fill_ids overwrites both identifier fields with the ping_url
derivation whatever the payload carried, so after a successful get every
returned check answers its id method with the ping_url token. -/
theorem C10_fill_ids_overwrite (c : Check) (eid esid : Option String)
    (d : String → Except String (List Check)) (s : Nat) (b : String)
    (q : Option String) (cs l : List Check) :
    Check.fill_ids { c with id := eid, short_id := esid } = Check.fill_ids c
    ∧ (Check.fill_ids c).id_fn = c.extract_id
    ∧ (Check.fill_ids c).short_id_fn = c.extract_short_id
    ∧ (d b = .ok cs → get d (.response s b) q = .ok l →
        ∀ c' ∈ l, c'.id_fn = c'.extract_id ∧ c'.id = some c'.extract_id) := by
  refine ⟨rfl, rfl, rfl, ?_⟩
  intro hd hget c' hc'
  cases q with
  | none =>
    simp [get, hd] at hget
    subst hget
    obtain ⟨c0, _, rfl⟩ := List.mem_map.mp hc'
    exact ⟨rfl, rfl⟩
  | some qq =>
    simp [get, hd] at hget
    subst hget
    obtain ⟨c0, _, rfl⟩ := List.mem_map.mp hc'
    exact ⟨rfl, rfl⟩

/-- Witness for claim C10 at a listing whose one check carried explicit
payload identifiers different from the ping_url token. -/
theorem C10_fill_ids_overwrite_witness :
    (dC10 "listing" = .ok [c10x])
    ∧ (get dC10 (.response 200 "listing") none = .ok [Check.fill_ids c10x])
    ∧ ∀ c' ∈ [Check.fill_ids c10x],
        c'.id_fn = c'.extract_id ∧ c'.id = some c'.extract_id :=
  ⟨rfl, rfl,
   (C10_fill_ids_overwrite c10x (some "payload-id") (some "payload") dC10
      200 "listing" none [c10x] [Check.fill_ids c10x]).2.2.2 rfl rfl⟩

/-- Claim C1 (the code at the failing inputs): add performs no local
validation at all: with an empty name, or grace 0, or grace 8761, it still
issues the request (the request list is non-empty, carrying exactly the
unvalidated payload) and returns whatever the decoded response is, never a
validation error. -/
theorem C1_add_no_validation :
    add decodeSample (.response 200 "body") "" "0 * * * *" 1 none none
      = ⟨[⟨"", "0 * * * *", 3600, "", "UTC", true⟩], .ok sampleCheck⟩
    ∧ (add decodeSample (.response 200 "body") "" "0 * * * *" 1 none
        none).requests ≠ []
    ∧ (add decodeSample (.response 200 "body") "x" "0 * * * *" 0 none
        none).result = .ok sampleCheck
    ∧ (add decodeSample (.response 200 "body") "x" "0 * * * *" 0 none
        none).requests = [⟨"x", "0 * * * *", 0, "", "UTC", true⟩]
    ∧ (add decodeSample (.response 200 "body") "x" "0 * * * *" 8761 none
        none).result = .ok sampleCheck
    ∧ (add decodeSample (.response 200 "body") "x" "0 * * * *" 8761 none
        none).requests = [⟨"x", "0 * * * *", 31539600, "", "UTC", true⟩] := by
  refine ⟨rfl, by decide, rfl, by decide, rfl, by decide⟩

/-- Claim C3 counterexample: pause against a 403 response succeeds outright
when the body decodes (no error of any kind, status never read), and with
an undecodable body it yields the serde decode message, which carries no
status code. -/
theorem C3_counterexample :
    (pause decodePaused (.response 403 "paused body")
        "https://healthchecks.io/api/v1/checks/" sampleCheck).2 = .ok c3resp
    ∧ status2xx 403 = false
    ∧ (pause decodeFailEmpty (.response 403 "")
        "https://healthchecks.io/api/v1/checks/" sampleCheck).2
      = .error "EOF while parsing a value at line 1 column 0"
    ∧ str_contains "EOF while parsing a value at line 1 column 0" "403"
      = false :=
  ⟨rfl, rfl, rfl, by decide⟩

/-- Claim C3 amended: the client never inspects the response status: after
a successful send, the outcome of pause is exactly the decode of the body
(identical for any two statuses), the requested url is base, id, /pause,
and a transport failure surfaces as the request-failed message. -/
theorem C3_pause_status_blind (decode : String → Except String Check)
    (s1 s2 : Nat) (b base : String) (c : Check) :
    (pause decode (.response s1 b) base c).2
        = (pause decode (.response s2 b) base c).2
    ∧ (pause decode (.response s1 b) base c).2 = decode b
    ∧ (pause decode (.response s1 b) base c).1 = base ++ c.id_fn ++ "/pause"
    ∧ (∀ m, (pause decode (.failure m) base c).2
        = .error ("request failed with " ++ m)) := by
  refine ⟨?_, ?_, rfl, fun m => rfl⟩ <;> cases h : decode b <;>
    simp [pause, h]

/-- Claim C9 counterexample: ping against a 500 response succeeds, although
500 is not in the 2xx range. -/
theorem C9_counterexample :
    (ping (.response 500 "") sampleCheck).2 = .ok ()
    ∧ status2xx 500 = false :=
  ⟨rfl, rfl⟩

/-- Claim C9 amended: ping requests exactly check.ping_url, decodes no
body, and succeeds exactly when the send produced a response of any status
whatsoever; only a transport failure is an error. -/
theorem C9_ping_transport_only (net : SendResult) (c : Check) :
    (ping net c).1 = c.ping_url
    ∧ ((ping net c).2 = .ok () ↔ net.isResponse = true) := by
  cases net <;> simp [ping, SendResult.isResponse]

end Hchk
